import Mathlib

/-!
Verification development for the RU-BOT location-busyness engine
(`src/gmaps/rutgers_busyness.py` and `src/gmaps/busyness_helper.py`).

Shallow embedding conventions:
- timestamps are modelled as whole minutes (`ℤ`); `datetime.weekday()` and
  `.hour` become `wkday`/`hourOf`, with minute 0 being a Monday 00:00, and
  Python floor-division/modulo become `Int.fdiv`/`Int.emod`;
- the `populartimes.get_id` payload becomes `Info` (an optional live reading
  plus an optional list of day entries, each holding an optional 24-cell list
  of optional integers, mirroring the `isinstance`/length checks of the code);
- upstream HTTP / provider calls that can raise become `Except String`;
- Python floats become exact rationals (`ℚ`) or reals (`ℝ`); Python 3's
  banker's rounding `round` becomes `pyRoundQ`/`pyRoundR`, and `round` of an
  integer quotient `round(s/n)` becomes the integer-level `pyRoundDiv s n`
  (proved equal to `pyRoundQ` of the exact quotient below).
-/

deriving instance DecidableEq for Except

namespace RUBot

/-- Python3 `round` on a rational: round half to even (then `int(...)`). -/
def pyRoundQ (x : ℚ) : ℤ :=
  if x - ⌊x⌋ < 1/2 then ⌊x⌋
  else if 1/2 < x - ⌊x⌋ then ⌊x⌋ + 1
  else if ⌊x⌋ % 2 = 0 then ⌊x⌋ else ⌊x⌋ + 1

/-- Python3 `round(s/n)` for integers `s` and `n > 0`, computed without leaving
`ℤ`: floor quotient, then compare the remainder against half the divisor,
rounding half to even. -/
def pyRoundDiv (s n : ℤ) : ℤ :=
  if 2 * Int.fmod s n < n then Int.fdiv s n
  else if n < 2 * Int.fmod s n then Int.fdiv s n + 1
  else if Int.fdiv s n % 2 = 0 then Int.fdiv s n else Int.fdiv s n + 1

/-- Python substring check helper: `startsWithChars n h` iff `n` is a leading
segment of `h`. -/
def startsWithChars : List Char → List Char → Bool
  | [], _ => true
  | _ :: _, [] => false
  | c :: cs, d :: ds => c == d && startsWithChars cs ds

/-- Python substring check helper over character lists. -/
def hasSubChars (needle : List Char) : List Char → Bool
  | [] => needle.isEmpty
  | d :: ds => startsWithChars needle (d :: ds) || hasSubChars needle ds

/-- Python `needle in hay` on strings. -/
def pyIn (needle hay : String) : Bool := hasSubChars needle.data hay.data

/-- Python `str.lower()` (ASCII range, which is all the code's keywords use). -/
def pyLower (s : String) : String := ⟨s.data.map Char.toLower⟩

/-- `datetime.weekday()` of a timestamp in minutes (minute 0 = a Monday 00:00). -/
def wkday (t : ℤ) : ℤ := (Int.fdiv t 1440) % 7

/-- `datetime.hour` of a timestamp in minutes. -/
def hourOf (t : ℤ) : ℤ := (Int.fdiv t 60) % 24

/-- One element of the `populartimes` list of a payload: a day `name`
(`none` when the name is not a weekday name) and the `data` list
(`none` when absent or not a list; cells are `none` when `int(...)` fails). -/
structure DayEntry where
  name : Option ℤ
  data : Option (List (Option ℤ))
  deriving DecidableEq

/-- The `populartimes.get_id` payload: `current_popularity` (`none` when absent
or not an `int`) and the weekly `populartimes` list. -/
structure Info where
  current_popularity : Option ℤ
  populartimes : Option (List DayEntry)
  deriving DecidableEq

/-- The loop condition of `_hist_at`: the entry's name matches the target
weekday and its data is a list of length 24. -/
def entryMatches (w : ℤ) (d : DayEntry) : Bool :=
  d.name == some w &&
    match d.data with
    | some l => l.length == 24
    | none => false

/-- `_hist_at` from `rutgers_busyness.py`: the first matching day entry's cell
at the timestamp's hour. -/
def _hist_at (info : Info) (t : ℤ) : Option ℤ :=
  match info.populartimes with
  | none => none
  | some pts =>
    match pts.find? (entryMatches (wkday t)) with
    | none => none
    | some d =>
      match d.data with
      | some l => (l.get? (hourOf t).toNat).join
      | none => none

/-- The offsets of the smoothing window `range(-window_hours, window_hours+1)`
with `window_hours = 1`. -/
def windowOffsets : List ℤ := [-1, 0, 1]

/-- The samples that exist in the ±1h window around `t` (minute part floored
away first, as `when_local.replace(minute=0, ...)` does). -/
def windowVals (info : Info) (t : ℤ) : List ℤ :=
  windowOffsets.filterMap (fun off => _hist_at info ((Int.fdiv t 60) * 60 + 60 * off))

/-- `_hist_around` from `rutgers_busyness.py` (with `window_hours = 1`):
`int(round(sum(vals)/len(vals)))` over the existing samples at hours
`hour-1, hour, hour+1`. -/
def _hist_around (info : Info) (t : ℤ) : Option ℤ :=
  let vals := windowVals info t
  if vals = [] then none
  else some (pyRoundDiv vals.sum vals.length)

/-- The popularity reading's source tag. -/
inductive Source
  | live
  | historical
  | area
  | unavailable
  deriving DecidableEq

/-- The resolution method tag of an engine result. -/
inductive Method
  | place
  | subvenue
  | area_weighted
  | none
  deriving DecidableEq

/-- The payload-level core of `_get_popularity_for_id_at`: live reading when
allowed and present, else the ±1h historical average, else unavailable. -/
def popAtInfo (info : Info) (t : ℤ) (allowLive : Bool) : Option ℤ × Source :=
  match allowLive, info.current_popularity with
  | true, some c => (some c, Source.live)
  | _, _ =>
    match _hist_around info t with
    | some h => (some h, Source.historical)
    | none => (none, Source.unavailable)

/-- `_get_popularity_for_id_at` from `rutgers_busyness.py`; the
`populartimes.get_id` network call is the `popSrc` oracle and may raise. -/
def _get_popularity_for_id_at (popSrc : String → Except String Info) (pid : String)
    (t : ℤ) (allowLive : Bool) : Except String (Option ℤ × Source) :=
  (popSrc pid).map (fun info => popAtInfo info t allowLive)

/-- A concrete Monday histogram with samples only at 13:00 (10), 14:00 (40)
and 15:00 (100). -/
def c3grid : List (Option ℤ) :=
  (List.range 24).map (fun h =>
    if h = 13 then some 10 else if h = 14 then some 40
    else if h = 15 then some 100 else none)

/-- A concrete payload with no live reading and the `c3grid` Monday histogram. -/
def c3info : Info :=
  { current_popularity := none, populartimes := some [⟨some 0, some c3grid⟩] }

/-- A concrete Monday histogram holding a single sample, 10 at 13:00. -/
def c3wgrid : List (Option ℤ) :=
  (List.range 24).map (fun h => if h = 13 then some 10 else none)

/-- A concrete payload whose Monday histogram has the single `c3wgrid` sample. -/
def c3winfo : Info :=
  { current_popularity := none, populartimes := some [⟨some 0, some c3wgrid⟩] }

example : _hist_at c3info 840 = some 40 := by decide
example : _hist_around c3info 840 = some 50 := by decide
example : windowVals c3winfo 840 = [10] := by decide
example : pyRoundDiv 1 2 = 0 := by decide
example : pyRoundDiv 3 2 = 2 := by decide
example : pyRoundDiv 5 2 = 2 := by decide
example : pyRoundDiv (-1) 2 = 0 := by decide
example : pyRoundDiv (-3) 2 = -2 := by decide
example : pyRoundDiv 7 3 = 2 := by decide

theorem pyRoundQ_intCast (v : ℤ) : pyRoundQ (v : ℚ) = v := by
  unfold pyRoundQ
  rw [Int.floor_intCast]
  simp

theorem pyRoundQ_mem (x : ℚ) : pyRoundQ x = ⌊x⌋ ∨ pyRoundQ x = ⌊x⌋ + 1 := by
  unfold pyRoundQ
  split
  · exact Or.inl rfl
  · split
    · exact Or.inr rfl
    · split
      · exact Or.inl rfl
      · exact Or.inr rfl

theorem pyRoundQ_bounds {a b : ℤ} {x : ℚ} (ha : (a : ℚ) ≤ x) (hb : x ≤ (b : ℚ)) :
    a ≤ pyRoundQ x ∧ pyRoundQ x ≤ b := by
  have hfa : a ≤ ⌊x⌋ := Int.le_floor.mpr ha
  have hfb : ⌊x⌋ ≤ b := by
    have := Int.floor_le_floor hb
    simpa using this
  constructor
  · rcases pyRoundQ_mem x with h | h <;> omega
  · rcases pyRoundQ_mem x with h | h
    · omega
    · by_cases hx : x - ⌊x⌋ < 1/2
      · unfold pyRoundQ at h
        rw [if_pos hx] at h
        omega
      · have hfrac : (0:ℚ) < x - ⌊x⌋ := by
          have : (0:ℚ) < 1/2 := by norm_num
          linarith [not_lt.mp hx]
        have hlt : (⌊x⌋ : ℚ) < (b : ℚ) := by linarith
        have : ⌊x⌋ < b := by exact_mod_cast hlt
        omega

theorem floor_intCast_div {s n : ℤ} (hn : 0 < n) :
    ⌊(s : ℚ) / (n : ℚ)⌋ = Int.fdiv s n := by
  obtain ⟨m, rfl⟩ := Int.eq_ofNat_of_zero_le (le_of_lt hn)
  rw [Int.fdiv_eq_ediv _ (by positivity)]
  have h := Rat.floor_intCast_div_natCast s m
  push_cast at h ⊢
  exact h

theorem fmod_eq_sub {s n : ℤ} : Int.fmod s n = s - Int.fdiv s n * n := by
  have := Int.fmod_add_fdiv s n
  linarith [this]

/-- `pyRoundDiv s n` is exactly Python's `round` of the true quotient `s/n`. -/
theorem pyRoundDiv_eq {s n : ℤ} (hn : 0 < n) :
    pyRoundDiv s n = pyRoundQ ((s : ℚ) / (n : ℚ)) := by
  have hn' : (0:ℚ) < (n:ℚ) := by exact_mod_cast hn
  have hfl := floor_intCast_div (s := s) hn
  have hx : (s : ℚ) / (n : ℚ) - ((Int.fdiv s n : ℤ) : ℚ) = ((Int.fmod s n : ℤ) : ℚ) / (n : ℚ) := by
    rw [fmod_eq_sub]
    field_simp
    ring
  have hlt : ((s : ℚ) / (n : ℚ) - (⌊(s : ℚ) / (n : ℚ)⌋ : ℚ) < 1/2) ↔ (2 * Int.fmod s n < n) := by
    rw [hfl, hx, div_lt_iff₀ hn']
    rw [show (1:ℚ)/2 * n = n/2 by ring]
    rw [lt_div_iff₀ (by norm_num : (0:ℚ) < 2)]
    constructor
    · intro h
      exact_mod_cast (by push_cast at h ⊢; linarith : ((2 * Int.fmod s n : ℤ) : ℚ) < ((n:ℤ) : ℚ))
    · intro h
      have : ((2 * Int.fmod s n : ℤ) : ℚ) < ((n:ℤ) : ℚ) := by exact_mod_cast h
      push_cast at this ⊢
      linarith
  have hgt : (1/2 < (s : ℚ) / (n : ℚ) - (⌊(s : ℚ) / (n : ℚ)⌋ : ℚ)) ↔ (n < 2 * Int.fmod s n) := by
    rw [hfl, hx, lt_div_iff₀ hn']
    rw [show (1:ℚ)/2 * n = n/2 by ring]
    rw [div_lt_iff₀ (by norm_num : (0:ℚ) < 2)]
    constructor
    · intro h
      exact_mod_cast (by push_cast at h ⊢; linarith : ((n:ℤ) : ℚ) < ((2 * Int.fmod s n : ℤ) : ℚ))
    · intro h
      have : ((n:ℤ) : ℚ) < ((2 * Int.fmod s n : ℤ) : ℚ) := by exact_mod_cast h
      push_cast at this ⊢
      linarith
  unfold pyRoundDiv pyRoundQ
  rw [hfl] at hlt hgt
  rw [hfl]
  by_cases h1 : 2 * Int.fmod s n < n
  · rw [if_pos h1, if_pos (hlt.mpr h1)]
  · rw [if_neg h1, if_neg (fun h => h1 (hlt.mp h))]
    by_cases h2 : n < 2 * Int.fmod s n
    · rw [if_pos h2, if_pos (hgt.mpr h2)]
    · rw [if_neg h2, if_neg (fun h => h2 (hgt.mp h))]

/-- A place payload from a Places v1 search: `id` (the empty string models a
falsy/absent id), optional display-name text, optional formatted address and
optional coordinates. -/
structure Place where
  id : String
  displayName : Option String
  formattedAddress : Option String
  location : Option (ℚ × ℚ)

/-- The engine's external world: the wall clock, the bounded text search, the
two nearby searches the cascade can make (same parameters, separate HTTP
calls) and the populartimes payload per place id. Every network call can
raise (`Except.error`). -/
structure Env where
  nowT : ℤ
  textSearch : String → Except String (Option Place)
  nearby1 : Except String (List Place)
  nearby2 : Except String (List Place)
  popAt : String → Except String Info

/-- `_is_now` from `rutgers_busyness.py`: within 30 minutes of the wall clock. -/
def _is_now (nowT t : ℤ) : Bool := |t - nowT| ≤ 30

/-- Call counters for the tiers below the place tier: `_nearby_places`
invocations and per-candidate `_get_popularity_for_id_at` calls. -/
structure Counts where
  nearby : ℕ
  candPop : ℕ
  deriving DecidableEq

/-- The `best` dict built by the sub-venue loop. -/
structure SubBest where
  val : ℤ
  src : Source
  rank : ℤ × ℤ
  id : String
  sname : Option String
  lat : Option ℚ
  lng : Option ℚ

/-- The ranking tuple `(2 if live else 1, value)`. -/
def rankOf (src : Source) (v : ℤ) : ℤ × ℤ := (if src = Source.live then 2 else 1, v)

/-- Python's lexicographic `>` on rank pairs. -/
def rankGt (a b : ℤ × ℤ) : Bool := b.1 < a.1 || (a.1 == b.1 && b.2 < a.2)

/-- The candidate record the sub-venue loop builds for one place. -/
def candOf (sp : Place) (sval : ℤ) (ssrc : Source) : SubBest :=
  ⟨sval, ssrc, rankOf ssrc sval, sp.id, sp.displayName,
   sp.location.map Prod.fst, sp.location.map Prod.snd⟩

/-- The sub-venue loop of `resolve_and_measure_at`: walks the candidates,
calling the popularity oracle on each one with a non-falsy id (an uncaught
raise propagates), keeping the best-ranked reading. Also returns how many
popularity calls it made. -/
def scanSub (popAt : String → Except String Info) (t : ℤ) (allow : Bool) :
    List Place → Option SubBest → Except String (Option SubBest) × ℕ
  | [], best => (Except.ok best, 0)
  | sp :: rest, best =>
    if sp.id = "" then scanSub popAt t allow rest best
    else
      match popAt sp.id with
      | Except.error e => (Except.error e, 1)
      | Except.ok info =>
        match popAtInfo info t allow with
        | (some sval, ssrc) =>
          let best' :=
            match best with
            | Option.none => some (candOf sp sval ssrc)
            | some b =>
              if rankGt (rankOf ssrc sval) b.rank then some (candOf sp sval ssrc) else some b
          let res := scanSub popAt t allow rest best'
          (res.1, res.2 + 1)
        | (Option.none, _) =>
          let res := scanSub popAt t allow rest best
          (res.1, res.2 + 1)

/-- The area-sampling loop of `resolve_and_measure_at`: collects
`(lat, lng, value)` triples for candidates with an id, a reading and
coordinates, counting its popularity calls; an uncaught raise propagates. -/
def collectSamples (popAt : String → Except String Info) (t : ℤ) (allow : Bool) :
    List Place → Except String (List (ℚ × ℚ × ℤ)) × ℕ
  | [] => (Except.ok [], 0)
  | ap :: rest =>
    if ap.id = "" then collectSamples popAt t allow rest
    else
      match popAt ap.id with
      | Except.error e => (Except.error e, 1)
      | Except.ok info =>
        match popAtInfo info t allow with
        | (some aval, _) =>
          match collectSamples popAt t allow rest with
          | (Except.error e, nn) => (Except.error e, nn + 1)
          | (Except.ok samps, nn) =>
            match ap.location with
            | some c => (Except.ok ((c.1, c.2, aval) :: samps), nn + 1)
            | Option.none => (Except.ok samps, nn + 1)
        | (Option.none, _) =>
          let res := collectSamples popAt t allow rest
          (res.1, res.2 + 1)

/-- `_weighted_area_estimate` with the Gaussian kernel abstracted into the
weight function `w` (the kernel itself is real-valued and is modelled
separately as `_weighted_area_estimate` below): accumulate `num`/`den` over
the samples, return `None` on an empty sample list or non-positive total
weight, else the rounded weighted mean. -/
def weightedEstimateW (w : ℚ × ℚ → ℚ × ℚ → ℚ) (center : ℚ × ℚ)
    (samples : List (ℚ × ℚ × ℤ)) : Option ℤ :=
  if samples = [] then none
  else
    let acc := samples.foldl
      (fun nd s => (nd.1 + w center (s.1, s.2.1) * (s.2.2 : ℚ), nd.2 + w center (s.1, s.2.1)))
      (0, 0)
    if acc.2 ≤ 0 then none else some (pyRoundQ (acc.1 / acc.2))

/-- The result dict of `resolve_and_measure_at`. -/
structure Obs where
  place_id : String
  name : String
  address : Option String
  coordinates : Option (ℚ × ℚ)
  popularity : Option ℤ
  source : Source
  method : Method
  subvenue : Option SubBest
  samples_used : Option ℕ
  whenT : ℤ

/-- `(top.get("displayName") or {}).get("text") or place_query`: the display
name text unless it is absent or falsy (empty). -/
def resolvedName (top : Place) (q : String) : String :=
  match top.displayName with
  | some s => if s = "" then q else s
  | none => q

/-- The terminal `{value=null, source=unavailable, method=none}` dict. -/
def terminalObs (pid nm : String) (addr : Option String) (loc : Option (ℚ × ℚ))
    (t : ℤ) : Obs :=
  { place_id := pid, name := nm, address := addr, coordinates := loc,
    popularity := none, source := Source.unavailable, method := Method.none,
    subvenue := none, samples_used := none, whenT := t }

/-- `resolve_and_measure_at` from `rutgers_busyness.py`, instrumented with the
`Counts` of nearby-search and per-candidate popularity calls it makes.
The place-tier popularity call and the two nearby-search bodies can raise;
only the nearby-search calls are guarded by `try/except`. When the resolved
place has no coordinates, `float(None)` raises inside both guarded
`_nearby_places` calls, so both lower tiers see no candidates. -/
def resolve_and_measure_at (w : ℚ × ℚ → ℚ × ℚ → ℚ) (env : Env)
    (place_query : String) (when_local : ℤ) : Except String (Option Obs) × Counts :=
  match env.textSearch place_query with
  | Except.error e => (Except.error e, ⟨0, 0⟩)
  | Except.ok Option.none => (Except.ok none, ⟨0, 0⟩)
  | Except.ok (some top) =>
    let pid := top.id
    let nm := resolvedName top place_query
    let allow := _is_now env.nowT when_local
    match env.popAt pid with
    | Except.error e => (Except.error e, ⟨0, 0⟩)
    | Except.ok info =>
      match popAtInfo info when_local allow with
      | (some v, src) =>
        (Except.ok (some
          { place_id := pid, name := nm, address := top.formattedAddress,
            coordinates := top.location, popularity := some v, source := src,
            method := Method.place, subvenue := none, samples_used := none,
            whenT := when_local }), ⟨0, 0⟩)
      | (Option.none, _) =>
        match top.location with
        | Option.none =>
          (Except.ok (some (terminalObs pid nm top.formattedAddress top.location when_local)),
           ⟨2, 0⟩)
        | some c =>
          let sub_places := match env.nearby1 with
            | Except.error _ => []
            | Except.ok l => l
          match scanSub env.popAt when_local allow sub_places none with
          | (Except.error e, nn) => (Except.error e, ⟨1, nn⟩)
          | (Except.ok (some best), nn) =>
            (Except.ok (some
              { place_id := pid, name := nm, address := top.formattedAddress,
                coordinates := top.location, popularity := some best.val,
                source := best.src, method := Method.subvenue,
                subvenue := some best, samples_used := none,
                whenT := when_local }), ⟨1, nn⟩)
          | (Except.ok Option.none, nn) =>
            let area_places := match env.nearby2 with
              | Except.error _ => []
              | Except.ok l => l
            match collectSamples env.popAt when_local allow area_places with
            | (Except.error e, mm) => (Except.error e, ⟨2, nn + mm⟩)
            | (Except.ok samples, mm) =>
              match weightedEstimateW w c samples with
              | some est =>
                (Except.ok (some
                  { place_id := pid, name := nm, address := top.formattedAddress,
                    coordinates := top.location, popularity := some est,
                    source := Source.area, method := Method.area_weighted,
                    subvenue := none, samples_used := some samples.length,
                    whenT := when_local }), ⟨2, nn + mm⟩)
              | Option.none =>
                (Except.ok (some (terminalObs pid nm top.formattedAddress top.location when_local)),
                 ⟨2, nn + mm⟩)

/-- A concrete resolved place used on concrete inputs. -/
def placeA : Place := ⟨"pid1", some "Busch Student Center", some "604 Bartholomew Rd", some (1, 2)⟩

/-- A concrete environment: live reading 55 for every place, nearby searches down. -/
def envA : Env :=
  { nowT := 0,
    textSearch := fun _ => Except.ok (some placeA),
    nearby1 := Except.error "down",
    nearby2 := Except.error "down",
    popAt := fun _ => Except.ok { current_popularity := some 55, populartimes := none } }

example : (resolve_and_measure_at (fun _ _ => 1) envA "busch" 10).2 = ⟨0, 0⟩ := by decide
example :
    ((resolve_and_measure_at (fun _ _ => 1) envA "busch" 10).1.toOption.join.map Obs.method)
      = some Method.place := by decide
example :
    ((resolve_and_measure_at (fun _ _ => 1) envA "busch" 10).1.toOption.join.map Obs.popularity)
      = some (some 55) := by decide


theorem scanSub_isOk (popAt : String → Except String Info) (t : ℤ) (allow : Bool)
    (htotal : ∀ pid, (popAt pid).isOk = true) :
    ∀ (l : List Place) (best : Option SubBest), ((scanSub popAt t allow l best).1).isOk = true := by
  intro l
  induction l with
  | nil => intro best; rfl
  | cons sp rest ih =>
    intro best
    unfold scanSub
    split
    · exact ih best
    · split
      · next e heq =>
          have := htotal sp.id
          rw [heq] at this
          simp [Except.isOk, Except.toBool] at this
      · split
        · exact ih _
        · exact ih best

theorem collectSamples_isOk (popAt : String → Except String Info) (t : ℤ) (allow : Bool)
    (htotal : ∀ pid, (popAt pid).isOk = true) :
    ∀ (l : List Place), ((collectSamples popAt t allow l).1).isOk = true := by
  intro l
  induction l with
  | nil => rfl
  | cons ap rest ih =>
    unfold collectSamples
    split
    · exact ih
    · split
      · next e heq =>
          have := htotal ap.id
          rw [heq] at this
          simp [Except.isOk, Except.toBool] at this
      · split
        · split
          · next heq =>
              have := ih
              rw [heq] at this
              simp [Except.isOk, Except.toBool] at this
          · split
            · rfl
            · rfl
        · exact ih

/-- C1: cascade short-circuit. For every weight kernel, provider behaviour,
query and timestamp, when the place tier (the popularity lookup on the
resolved place) yields a non-null value, `resolve_and_measure_at` returns
immediately with `method = place` and that value, and the skipped sub-venue
and area tiers make zero nearby-search calls and zero per-candidate
popularity calls. -/
theorem C1_place_tier_short_circuit (w : ℚ × ℚ → ℚ × ℚ → ℚ) (env : Env)
    (q : String) (t : ℤ) (top : Place) (info : Info) (v : ℤ) (src : Source)
    (hts : env.textSearch q = Except.ok (some top))
    (hpop : env.popAt top.id = Except.ok info)
    (hval : popAtInfo info t (_is_now env.nowT t) = (some v, src)) :
    resolve_and_measure_at w env q t =
      (Except.ok (some
        { place_id := top.id, name := resolvedName top q,
          address := top.formattedAddress, coordinates := top.location,
          popularity := some v, source := src, method := Method.place,
          subvenue := none, samples_used := none, whenT := t }), ⟨0, 0⟩) := by
  simp only [resolve_and_measure_at, hts, hpop, hval]

/-- The place-tier observation produced on the concrete environment `envA`. -/
def obsA : Obs :=
  { place_id := "pid1", name := "Busch Student Center",
    address := some "604 Bartholomew Rd", coordinates := some (1, 2),
    popularity := some 55, source := Source.live, method := Method.place,
    subvenue := none, samples_used := none, whenT := 10 }

/-- C1 witness: on `envA` (live reading 55, nearby searches failing) the
engine returns the live place-tier observation with zero lower-tier calls. -/
theorem C1_place_tier_short_circuit_witness :
    resolve_and_measure_at (fun _ _ => 1) envA "busch" 10 =
      (Except.ok (some obsA), ⟨0, 0⟩) :=
  C1_place_tier_short_circuit (fun _ _ => 1) envA "busch" 10 placeA
    { current_popularity := some 55, populartimes := none } 55 Source.live
    rfl rfl (by decide)

/-- A concrete environment whose popularity oracle raises on every call. -/
def envB : Env :=
  { nowT := 0,
    textSearch := fun _ => Except.ok (some placeA),
    nearby1 := Except.ok [],
    nearby2 := Except.ok [],
    popAt := fun _ => Except.error "boom" }

/-- C2 counterexample: on `envB` the place-tier popularity call raises and
the exception IS surfaced to the caller of `resolve_and_measure_at` — the
claimed terminal `{value=null, source=unavailable, method=none}` result is
not returned, refuting "never surfaced to the caller as a raised
exception". -/
theorem C2_popularity_failure_surfaces_cex :
    resolve_and_measure_at (fun _ _ => 1) envB "busch" 10 = (Except.error "boom", ⟨0, 0⟩) ∧
    (resolve_and_measure_at (fun _ _ => 1) envB "busch" 10).1.isOk = false :=
  ⟨rfl, rfl⟩

/-- C2 amended: only the nearby-search calls are guarded. For every
environment whose popularity oracle never raises, no exception escapes
`resolve_and_measure_at` even when both nearby searches raise; and when
additionally the place tier has no data and both nearby searches raise, the
terminal `{value=null, source=unavailable, method=none}` observation is
returned. (Popularity-call exceptions, by contrast, propagate — see the
counterexample.) -/
theorem C2_nearby_failures_absorbed (w : ℚ × ℚ → ℚ × ℚ → ℚ) (env : Env)
    (q : String) (t : ℤ) (top : Place)
    (hts : env.textSearch q = Except.ok (some top))
    (htotal : ∀ pid, (env.popAt pid).isOk = true) :
    ((resolve_and_measure_at w env q t).1.isOk = true) ∧
    (∀ e e' info, env.nearby1 = Except.error e → env.nearby2 = Except.error e' →
      env.popAt top.id = Except.ok info →
      popAtInfo info t (_is_now env.nowT t) = (none, Source.unavailable) →
      (resolve_and_measure_at w env q t).1 =
        Except.ok (some (terminalObs top.id (resolvedName top q) top.formattedAddress
          top.location t))) := by
  constructor
  · simp only [resolve_and_measure_at, hts]
    split
    · next e heq =>
        have := htotal top.id
        rw [heq] at this
        simp [Except.isOk, Except.toBool] at this
    · split
      · rfl
      · split
        · rfl
        · split
          · next heq =>
              have hh := scanSub_isOk env.popAt t (_is_now env.nowT t) htotal
                (match env.nearby1 with | Except.error _ => [] | Except.ok l => l) none
              rw [heq] at hh
              simp [Except.isOk, Except.toBool] at hh
          · rfl
          · split
            · next heq =>
                have hh := collectSamples_isOk env.popAt t (_is_now env.nowT t) htotal
                  (match env.nearby2 with | Except.error _ => [] | Except.ok l => l)
                rw [heq] at hh
                simp [Except.isOk, Except.toBool] at hh
            · split
              · rfl
              · rfl
  · intro e e' info h1 h2 hpop hval
    simp only [resolve_and_measure_at, hts, h1, h2, hpop, hval, scanSub, collectSamples,
      weightedEstimateW]
    cases top.location with
    | none => rfl
    | some c => simp

/-- A concrete environment with no crowd data and both nearby searches down. -/
def envC : Env :=
  { nowT := 0,
    textSearch := fun _ => Except.ok (some placeA),
    nearby1 := Except.error "down",
    nearby2 := Except.error "down",
    popAt := fun _ => Except.ok { current_popularity := none, populartimes := none } }

/-- C2 witness: on `envC` (no data anywhere, nearby searches raising) the
engine raises nothing and returns the terminal unavailable observation. -/
theorem C2_nearby_failures_absorbed_witness :
    ((resolve_and_measure_at (fun _ _ => 1) envC "busch" 10).1.isOk = true) ∧
    ((resolve_and_measure_at (fun _ _ => 1) envC "busch" 10).1 =
      Except.ok (some (terminalObs "pid1" "Busch Student Center"
        (some "604 Bartholomew Rd") (some (1, 2)) 10))) :=
  ⟨(C2_nearby_failures_absorbed (fun _ _ => 1) envC "busch" 10 placeA rfl (fun _ => rfl)).1,
   (C2_nearby_failures_absorbed (fun _ _ => 1) envC "busch" 10 placeA rfl (fun _ => rfl)).2
     "down" "down" { current_popularity := none, populartimes := none }
     rfl rfl rfl (by decide)⟩

def infoInRange (info : Info) : Prop :=
  (∀ c, info.current_popularity = some c → 0 ≤ c ∧ c ≤ 100) ∧
  (∀ pts, info.populartimes = some pts → ∀ d ∈ pts, ∀ l, d.data = some l →
    ∀ x ∈ l, ∀ v, x = some v → 0 ≤ v ∧ v ≤ 100)

/-- The §6 boundary contract `getPopularity` promises: provider readings are
popularity percentages, i.e. every live reading and histogram cell sits in
`[0, 100]`. -/
def rangeValid (env : Env) : Prop :=
  ∀ pid info, env.popAt pid = Except.ok info → infoInRange info

theorem _hist_at_range {info : Info} (hr : infoInRange info) {t v : ℤ}
    (h : _hist_at info t = some v) : 0 ≤ v ∧ v ≤ 100 := by
  unfold _hist_at at h
  split at h
  · exact absurd h (by simp)
  · rename_i pts hpts
    split at h
    · exact absurd h (by simp)
    · rename_i d hf
      split at h
      · rename_i l hdata
        rcases hg : l.get? (hourOf t).toNat with _ | x
        · rw [hg] at h; exact absurd h (by simp)
        · rw [hg] at h
          rw [show (some x).join = x from rfl] at h
          exact hr.2 pts hpts d (List.mem_of_find?_eq_some hf) l hdata x (List.get?_mem hg) v h
      · exact absurd h (by simp)

theorem windowVals_range {info : Info} (hr : infoInRange info) (t : ℤ) :
    ∀ v ∈ windowVals info t, 0 ≤ v ∧ v ≤ 100 := by
  intro v hv
  simp only [windowVals, List.mem_filterMap] at hv
  obtain ⟨off, _, h⟩ := hv
  exact _hist_at_range hr h

theorem sum_bounds {a b : ℤ} : ∀ (l : List ℤ), (∀ v ∈ l, a ≤ v ∧ v ≤ b) →
    a * l.length ≤ l.sum ∧ l.sum ≤ b * l.length := by
  intro l
  induction l with
  | nil => simp
  | cons v rest ih =>
    intro h
    have hv := h v (List.mem_cons_self v rest)
    have ih2 := ih (fun x hx => h x (List.mem_cons_of_mem _ hx))
    simp only [List.sum_cons, List.length_cons, Nat.cast_add, Nat.cast_one]
    rw [mul_add, mul_one, mul_add, mul_one]
    constructor <;> linarith [ih2.1, ih2.2, hv.1, hv.2]

theorem pyRoundDiv_bounds {a b s n : ℤ} (hn : 0 < n) (h1 : a * n ≤ s) (h2 : s ≤ b * n) :
    a ≤ pyRoundDiv s n ∧ pyRoundDiv s n ≤ b := by
  rw [pyRoundDiv_eq hn]
  have hn2 : (0:ℚ) < (n:ℚ) := by exact_mod_cast hn
  apply pyRoundQ_bounds
  · rw [le_div_iff₀ hn2]
    exact_mod_cast h1
  · rw [div_le_iff₀ hn2]
    exact_mod_cast h2

theorem _hist_around_range {info : Info} (hr : infoInRange info) {t v : ℤ}
    (h : _hist_around info t = some v) : 0 ≤ v ∧ v ≤ 100 := by
  simp only [_hist_around] at h
  by_cases hnil : windowVals info t = []
  · rw [if_pos hnil] at h
    exact absurd h (by simp)
  · rw [if_neg hnil] at h
    have hv := Option.some.inj h
    have hlen : 0 < (windowVals info t).length := List.length_pos.mpr hnil
    have hb := sum_bounds (a := 0) (b := 100) (windowVals info t) (windowVals_range hr t)
    have hres := pyRoundDiv_bounds (a := 0) (b := 100)
      (n := ((windowVals info t).length : ℤ)) (by exact_mod_cast hlen)
      (by linarith [hb.1]) (by linarith [hb.2])
    rw [hv] at hres
    exact hres

theorem popAtInfo_range {info : Info} {t : ℤ} {allow : Bool} {v : ℤ} {src : Source}
    (hr : infoInRange info) (h : popAtInfo info t allow = (some v, src)) :
    0 ≤ v ∧ v ≤ 100 := by
  unfold popAtInfo at h
  cases allow with
  | false =>
    rcases hh : _hist_around info t with _ | hval
    · rw [hh] at h; simp at h
    · rw [hh] at h
      simp only [Prod.mk.injEq, Option.some.injEq] at h
      obtain ⟨rfl, -⟩ := h
      exact _hist_around_range hr hh
  | true =>
    rcases hc : info.current_popularity with _ | c
    · rw [hc] at h
      rcases hh : _hist_around info t with _ | hval
      · rw [hh] at h; simp at h
      · rw [hh] at h
        simp only [Prod.mk.injEq, Option.some.injEq] at h
        obtain ⟨rfl, -⟩ := h
        exact _hist_around_range hr hh
    · rw [hc] at h
      simp only [Prod.mk.injEq, Option.some.injEq] at h
      obtain ⟨rfl, -⟩ := h
      exact hr.1 c hc

theorem popAtInfo_some_src {info : Info} {t : ℤ} {allow : Bool} {v : ℤ} {src : Source}
    (h : popAtInfo info t allow = (some v, src)) :
    src = Source.live ∨ src = Source.historical := by
  unfold popAtInfo at h
  cases allow with
  | false =>
    rcases hh : _hist_around info t with _ | hval <;> rw [hh] at h <;> simp at h
    · exact Or.inr h.2.symm
  | true =>
    rcases hc : info.current_popularity with _ | c <;> rw [hc] at h
    · rcases hh : _hist_around info t with _ | hval <;> rw [hh] at h <;> simp at h
      · exact Or.inr h.2.symm
    · simp at h
      exact Or.inl h.2.symm

def goodBest (b : SubBest) : Prop :=
  (0 ≤ b.val ∧ b.val ≤ 100) ∧ (b.src = Source.live ∨ b.src = Source.historical)

theorem scanSub_good (popAt : String → Except String Info) (t : ℤ) (allow : Bool)
    (hr : ∀ pid info, popAt pid = Except.ok info → infoInRange info) :
    ∀ (l : List Place) (best0 : Option SubBest),
      (∀ b, best0 = some b → goodBest b) →
      ∀ b, (scanSub popAt t allow l best0).1 = Except.ok (some b) → goodBest b := by
  intro l
  induction l with
  | nil =>
    intro best0 h0 b hb
    simp only [scanSub] at hb
    exact h0 b (Except.ok.inj hb)
  | cons sp rest ih =>
    intro best0 h0 b hb
    unfold scanSub at hb
    split at hb
    · exact ih best0 h0 b hb
    · split at hb
      · simp at hb
      · rename_i info hp
        split at hb
        · rename_i sval ssrc hpi
          have hcand : goodBest (candOf sp sval ssrc) :=
            ⟨popAtInfo_range (hr sp.id info hp) hpi, popAtInfo_some_src hpi⟩
          rcases best0 with _ | b0
          · refine ih _ ?_ b hb
            intro b2 hb2
            have hb3 : some (candOf sp sval ssrc) = some b2 := hb2
            exact (Option.some.inj hb3) ▸ hcand
          · refine ih _ ?_ b hb
            intro b2 hb2
            have hb3 : (if rankGt (rankOf ssrc sval) b0.rank = true
                then some (candOf sp sval ssrc) else some b0) = some b2 := hb2
            by_cases hrk : rankGt (rankOf ssrc sval) b0.rank = true
            · rw [if_pos hrk] at hb3
              exact (Option.some.inj hb3) ▸ hcand
            · rw [if_neg hrk] at hb3
              exact (Option.some.inj hb3) ▸ h0 b0 rfl
        · exact ih best0 h0 b hb

theorem collectSamples_range (popAt : String → Except String Info) (t : ℤ) (allow : Bool)
    (hr : ∀ pid info, popAt pid = Except.ok info → infoInRange info) :
    ∀ (l : List Place) (samples : List (ℚ × ℚ × ℤ)),
      (collectSamples popAt t allow l).1 = Except.ok samples →
      ∀ s ∈ samples, 0 ≤ s.2.2 ∧ s.2.2 ≤ 100 := by
  intro l
  induction l with
  | nil =>
    intro samples hs s hmem
    simp only [collectSamples] at hs
    rw [← Except.ok.inj hs] at hmem
    simp at hmem
  | cons ap rest ih =>
    intro samples hs s hmem
    unfold collectSamples at hs
    split at hs
    · exact ih samples hs s hmem
    · split at hs
      · simp at hs
      · rename_i info hp
        split at hs
        · rename_i aval _ hpi
          split at hs
          · simp at hs
          · rename_i samps nn hc
            split at hs
            · rename_i cc
              rw [← Except.ok.inj hs] at hmem
              rcases List.mem_cons.mp hmem with rfl | hmem2
              · exact popAtInfo_range (hr ap.id info hp) hpi
              · exact ih samps (by rw [hc]) s hmem2
            · refine ih samps (by rw [hc]) s ?_
              rw [← Except.ok.inj hs] at hmem
              exact hmem
        · exact ih samples hs s hmem

theorem foldl_pair_sum {σ R : Type} [AddCommMonoid R] (f g : σ → R) :
    ∀ (l : List σ) (x y : R),
      l.foldl (fun nd s => (nd.1 + f s, nd.2 + g s)) (x, y)
        = (x + (l.map f).sum, y + (l.map g).sum) := by
  intro l
  induction l with
  | nil => intro x y; simp
  | cons s rest ih =>
    intro x y
    simp only [List.foldl_cons, List.map_cons, List.sum_cons]
    rw [ih]
    rw [Prod.mk.injEq]
    constructor <;> rw [add_assoc]

theorem weightedEstimateW_range {w : ℚ × ℚ → ℚ × ℚ → ℚ} {c : ℚ × ℚ}
    {samples : List (ℚ × ℚ × ℤ)} {est : ℤ}
    (hw : ∀ p r, 0 ≤ w p r)
    (hs : ∀ s ∈ samples, 0 ≤ s.2.2 ∧ s.2.2 ≤ 100)
    (h : weightedEstimateW w c samples = some est) : 0 ≤ est ∧ est ≤ 100 := by
  unfold weightedEstimateW at h
  split at h
  · simp at h
  · rw [foldl_pair_sum (fun s : ℚ × ℚ × ℤ => w c (s.1, s.2.1) * (s.2.2 : ℚ))
      (fun s : ℚ × ℚ × ℤ => w c (s.1, s.2.1)) samples 0 0] at h
    simp only [zero_add] at h
    split at h
    · simp at h
    · rename_i hden
      have hden2 : 0 < (samples.map (fun s : ℚ × ℚ × ℤ => w c (s.1, s.2.1))).sum :=
        lt_of_not_le hden
      have hnum0 : 0 ≤ (samples.map (fun s : ℚ × ℚ × ℤ => w c (s.1, s.2.1) * (s.2.2 : ℚ))).sum := by
        apply List.sum_nonneg
        intro x hx
        simp only [List.mem_map] at hx
        obtain ⟨s, hsmem, rfl⟩ := hx
        have hv0 := (hs s hsmem).1
        have hv : (0:ℚ) ≤ (s.2.2 : ℚ) := by exact_mod_cast hv0
        exact mul_nonneg (hw _ _) hv
      have hnum100 : (samples.map (fun s : ℚ × ℚ × ℤ => w c (s.1, s.2.1) * (s.2.2 : ℚ))).sum
          ≤ 100 * (samples.map (fun s : ℚ × ℚ × ℤ => w c (s.1, s.2.1))).sum := by
        rw [← List.sum_map_mul_left]
        apply List.sum_le_sum
        intro s hsmem
        have hv100 := (hs s hsmem).2
        have hv : (s.2.2 : ℚ) ≤ 100 := by exact_mod_cast hv100
        calc w c (s.1, s.2.1) * (s.2.2 : ℚ) ≤ w c (s.1, s.2.1) * 100 :=
              mul_le_mul_of_nonneg_left hv (hw _ _)
          _ = 100 * w c (s.1, s.2.1) := by ring
      have hq := pyRoundQ_bounds (a := 0) (b := 100)
        (x := (samples.map (fun s : ℚ × ℚ × ℤ => w c (s.1, s.2.1) * (s.2.2 : ℚ))).sum /
          (samples.map (fun s : ℚ × ℚ × ℤ => w c (s.1, s.2.1))).sum)
        (by
          push_cast
          exact div_nonneg hnum0 (le_of_lt hden2))
        (by
          push_cast
          rw [div_le_iff₀ hden2]
          linarith)
      rw [Option.some.inj h] at hq
      exact hq

/-- C4: observation value-range invariant. For every nonnegative weight
kernel and every environment whose provider readings respect the `[0,100]`
popularity contract, every observation `resolve_and_measure_at` returns —
from the place, sub-venue, area or terminal tier — has a popularity that is
null or an integer in `[0,100]`, and `source = unavailable` implies the
popularity is null. -/
theorem C4_value_range_invariant (w : ℚ × ℚ → ℚ × ℚ → ℚ) (env : Env) (q : String) (t : ℤ)
    (hw : ∀ p r, 0 ≤ w p r) (hr : rangeValid env) :
    ∀ obs, (resolve_and_measure_at w env q t).1 = Except.ok (some obs) →
      (obs.popularity = none ∨ ∃ v, obs.popularity = some v ∧ 0 ≤ v ∧ v ≤ 100) ∧
      (obs.source = Source.unavailable → obs.popularity = none) := by
  intro obs h
  simp only [resolve_and_measure_at] at h
  split at h
  · simp at h
  · simp at h
  · rename_i top hts
    split at h
    · simp at h
    · rename_i info hp
      split at h
      · rename_i v src hpi
        have hobs := Option.some.inj (Except.ok.inj h)
        subst hobs
        refine ⟨Or.inr ⟨v, rfl, popAtInfo_range (hr top.id info hp) hpi⟩, ?_⟩
        intro hsrc
        have hsrc2 : src = Source.unavailable := hsrc
        rcases popAtInfo_some_src hpi with h1 | h1 <;> rw [h1] at hsrc2 <;> simp at hsrc2
      · rename_i snd hpi
        split at h
        · have hobs := Option.some.inj (Except.ok.inj h)
          subst hobs
          exact ⟨Or.inl rfl, fun _ => rfl⟩
        · rename_i cc hloc
          split at h
          · simp at h
          · rename_i best nn hscan
            have hobs := Option.some.inj (Except.ok.inj h)
            subst hobs
            have hgood := scanSub_good env.popAt t (_is_now env.nowT t) hr _ none
              (by intro b hb; simp at hb) best (by rw [hscan])
            refine ⟨Or.inr ⟨best.val, rfl, hgood.1⟩, ?_⟩
            intro hsrc
            have hsrc2 : best.src = Source.unavailable := hsrc
            rcases hgood.2 with h1 | h1 <;> rw [h1] at hsrc2 <;> simp at hsrc2
          · rename_i nn hscan
            split at h
            · simp at h
            · rename_i samples mm hcol
              split at h
              · rename_i est hest
                have hobs := Option.some.inj (Except.ok.inj h)
                subst hobs
                have hrange := collectSamples_range env.popAt t (_is_now env.nowT t) hr _
                  samples (by rw [hcol])
                have hb := weightedEstimateW_range hw hrange hest
                refine ⟨Or.inr ⟨est, rfl, hb⟩, ?_⟩
                intro hsrc
                have hsrc2 : Source.area = Source.unavailable := hsrc
                simp at hsrc2
              · have hobs := Option.some.inj (Except.ok.inj h)
                subst hobs
                exact ⟨Or.inl rfl, fun _ => rfl⟩

/-- C4 witness: the invariant instantiated on the concrete environment
`envA`, whose only reading is the in-range live value 55. -/
theorem C4_value_range_invariant_witness :
    (obsA.popularity = none ∨ ∃ v, obsA.popularity = some v ∧ 0 ≤ v ∧ v ≤ 100) ∧
    (obsA.source = Source.unavailable → obsA.popularity = none) :=
  C4_value_range_invariant (fun _ _ => 1) envA "busch" 10
    (fun _ _ => zero_le_one)
    (fun pid info h => by
      have hinj := Except.ok.inj h
      rw [← hinj]
      exact ⟨fun c hc => by
          have := Option.some.inj hc
          omega,
        fun pts hpts => by cases hpts⟩)
    obsA (by rfl)


/-- C3 counterexample: on the concrete payload `c3info` the exact
(weekday, hour) cell holds 40, yet `_get_popularity_for_id_at` (live branch
off) returns 50 — the average of the three samples 10, 40, 100 — so the
exact cell is NOT returned when available, refuting the claimed
exact-cell-first lookup order. -/
theorem C3_exact_cell_not_preferred_cex :
    _hist_at c3info 840 = some 40 ∧
    _get_popularity_for_id_at (fun _ => Except.ok c3info) "p" 840 false =
      Except.ok (some 50, Source.historical) ∧
    (50 : ℤ) ≠ 40 :=
  ⟨by decide, by decide, by decide⟩

/-- C3 amended: in the historical branch the provider always returns the
half-even-rounded mean of whichever of the samples at hours
`hour-1, hour, hour+1` exist (the exact cell is averaged in, never
preferred), and returns `{value=null, source=unavailable}` exactly when none
of the three exist. -/
theorem C3_smoothing_always_averages (popSrc : String → Except String Info)
    (pid : String) (t : ℤ) (info : Info) (hp : popSrc pid = Except.ok info) :
    (windowVals info t = [] →
      _get_popularity_for_id_at popSrc pid t false = Except.ok (none, Source.unavailable)) ∧
    (windowVals info t ≠ [] →
      _get_popularity_for_id_at popSrc pid t false =
        Except.ok (some (pyRoundQ (((windowVals info t).sum : ℚ) /
          ((windowVals info t).length : ℚ))), Source.historical)) := by
  constructor
  · intro hnil
    simp only [_get_popularity_for_id_at, hp, Except.map, popAtInfo, _hist_around, hnil,
      if_pos]
  · intro hnil
    have hlen : 0 < ((windowVals info t).length : ℤ) := by
      exact_mod_cast List.length_pos.mpr hnil
    simp only [_get_popularity_for_id_at, hp, Except.map, popAtInfo, _hist_around,
      if_neg hnil]
    rw [pyRoundDiv_eq hlen]
    norm_num

/-- C3 witness: on the single-sample payload `c3winfo` the window holds just
the 13:00 value and the provider returns its (rounded) mean, historically
sourced. -/
theorem C3_smoothing_always_averages_witness :
    windowVals c3winfo 840 = [10] ∧
    _get_popularity_for_id_at (fun _ => Except.ok c3winfo) "p" 840 false =
      Except.ok (some (pyRoundQ (((windowVals c3winfo 840).sum : ℚ) /
        ((windowVals c3winfo 840).length : ℚ))), Source.historical) :=
  ⟨by decide,
   (C3_smoothing_always_averages (fun _ => Except.ok c3winfo) "p" 840 c3winfo rfl).2 (by decide)⟩


/-- `_normalize_place_query` from `rutgers_busyness.py`: campus shorthand to
canonical student-center queries, first match wins, else the query as-is. -/
def _normalize_place_query (q : String) : String :=
  let s := pyLower q
  if pyIn "busch" s then "Busch Student Center Rutgers"
  else if pyIn "college ave" s || pyIn "college avenue" s || pyIn "cac" s then
    "College Ave Student Center Rutgers"
  else if pyIn "livingston" s || pyIn "livi" s then "Livingston Student Center Rutgers"
  else if pyIn "cook" s then "Cook Student Center Rutgers"
  else if pyIn "douglass" s || pyIn "doug" s then "Douglass Student Center Rutgers"
  else q

/-- The dining keywords of `get_busyness_at_time`. -/
def diningKws : List String := ["dining", "cafe", "starbucks", "restaurant", "food", "market"]

/-- The dining keywords of `find_peak_time` (adds `"fast food"`). -/
def diningKwsPeak : List String :=
  ["dining", "cafe", "starbucks", "restaurant", "food", "market", "fast food"]

/-- The target resolution of `get_busyness_at_time`: dining-style queries are
used as-is, others are normalized. -/
def targetBusy (q : String) : String :=
  if diningKws.any (fun k => pyIn k (pyLower q)) then q else _normalize_place_query q

/-- The response dict of `get_busyness_at_time`. -/
structure BusyResult where
  location : Option String
  time : Option ℤ
  popularity : Option ℤ
  source : Source
  status : String
  message : String
  method : Option Method

/-- Zero-padded two-digit rendering used by `strftime`. -/
def pad2 (n : ℤ) : String := if n < 10 then "0" ++ toString n else toString n

/-- `strftime("%I:%M %p")` of a timestamp in minutes. -/
def fmtIMp (t : ℤ) : String :=
  let h := hourOf t
  let h12 := if Int.emod h 12 = 0 then 12 else Int.emod h 12
  pad2 h12 ++ ":" ++ pad2 (Int.fmod t 60) ++ " " ++ (if h < 12 then "AM" else "PM")

/-- `get_busyness_at_time` from `busyness_helper.py`. The `_parse_when` step
reads the wall clock and regexes free text; its output is kept abstract as
the parameter `whenT` (universally quantified in the theorems below). The
outer `try/except` turns any engine exception into the `status="error"`
response. -/
def get_busyness_at_time (w : ℚ × ℚ → ℚ × ℚ → ℚ) (env : Env)
    (query_text : String) (whenT : ℤ) : BusyResult :=
  let target := targetBusy query_text
  match (resolve_and_measure_at w env target whenT).1 with
  | Except.error e =>
    { location := none, time := none, popularity := none, source := Source.unavailable,
      status := "error", message := "Error: " ++ e, method := none }
  | Except.ok Option.none =>
    { location := some target, time := some whenT, popularity := none,
      source := Source.unavailable, status := "error",
      message := "Could not find location: " ++ target, method := none }
  | Except.ok (some r) =>
    match r.popularity with
    | Option.none =>
      { location := some r.name, time := some whenT, popularity := none,
        source := r.source, status := "unavailable",
        message := "Busyness data unavailable", method := some r.method }
    | some val =>
      let level := if val < 30 then "🟢 light" else if val < 60 then "🟡 medium"
        else if val < 85 then "🟠 high" else "🔴 very high"
      let time_desc := if |whenT - env.nowT| < 30 then "now" else fmtIMp whenT
      { location := some r.name, time := some whenT, popularity := some val,
        source := r.source, status := "success",
        message := r.name ++ " is " ++ toString val ++ "% busy (" ++ level ++ ") at "
          ++ time_desc,
        method := some r.method }

theorem startsWithChars_append {needle l : List Char} (l2 : List Char)
    (h : startsWithChars needle l = true) : startsWithChars needle (l ++ l2) = true := by
  induction needle generalizing l with
  | nil => rfl
  | cons c cs ih =>
    cases l with
    | nil => simp [startsWithChars] at h
    | cons d ds =>
      simp only [startsWithChars, Bool.and_eq_true] at h ⊢
      exact ⟨h.1, ih h.2⟩

theorem hasSubChars_append_left {needle pre : List Char} (l2 : List Char)
    (h : hasSubChars needle pre = true) : hasSubChars needle (pre ++ l2) = true := by
  induction pre with
  | nil =>
    simp only [hasSubChars] at h
    cases needle with
    | nil => cases l2 with
      | nil => rfl
      | cons d ds => simp [hasSubChars, startsWithChars]
    | cons c cs => simp [List.isEmpty] at h
  | cons d ds ih =>
    simp only [List.cons_append, hasSubChars, Bool.or_eq_true] at h ⊢
    rcases h with h | h
    · exact Or.inl (by
        have := startsWithChars_append l2 h
        simpa using this)
    · exact Or.inr (ih h)

/-- An environment whose bounded text search finds nothing. -/
def envNF : Env :=
  { nowT := 0,
    textSearch := fun _ => Except.ok none,
    nearby1 := Except.ok [],
    nearby2 := Except.ok [],
    popAt := fun _ => Except.ok { current_popularity := none, populartimes := none } }

/-- C8 counterexample: when the bounded-region text search returns nothing,
the response has `status="error"` and null popularity as claimed, but its
message is "Could not find location: <target>", which does NOT contain the
text "not found" — refuting the message clause of the claim. -/
theorem C8_not_found_message_cex :
    (get_busyness_at_time (fun _ _ => 1) envNF "xyz hall" 0).status = "error" ∧
    (get_busyness_at_time (fun _ _ => 1) envNF "xyz hall" 0).popularity = none ∧
    (get_busyness_at_time (fun _ _ => 1) envNF "xyz hall" 0).message =
      "Could not find location: xyz hall" ∧
    pyIn "not found" (get_busyness_at_time (fun _ _ => 1) envNF "xyz hall" 0).message
      = false := by
  refine ⟨by decide, by decide, by decide, by decide⟩

/-- C8 amended: for every query whose bounded-region text search returns
zero results, `get_busyness_at_time` returns `status="error"`, null
popularity and the message "Could not find location: <target>" — which
contains the text "not find" (not "not found"); the failure is terminal
(the single text-search result decides it). -/
theorem C8_not_found_response (w : ℚ × ℚ → ℚ × ℚ → ℚ) (env : Env) (q : String) (whenT : ℤ)
    (h : env.textSearch (targetBusy q) = Except.ok none) :
    (get_busyness_at_time w env q whenT).status = "error" ∧
    (get_busyness_at_time w env q whenT).popularity = none ∧
    (get_busyness_at_time w env q whenT).message =
      "Could not find location: " ++ targetBusy q ∧
    pyIn "not find" (get_busyness_at_time w env q whenT).message = true := by
  have heng : resolve_and_measure_at w env (targetBusy q) whenT
      = (Except.ok none, ⟨0, 0⟩) := by
    simp only [resolve_and_measure_at, h]
  simp only [get_busyness_at_time, heng]
  refine ⟨by trivial, by trivial, by trivial, ?_⟩
  show pyIn "not find" ("Could not find location: " ++ targetBusy q) = true
  simp only [pyIn, String.data_append]
  exact hasSubChars_append_left _ (by decide)

/-- C8 witness: the amended behaviour on the concrete environment `envNF`
and the query "another quad". -/
theorem C8_not_found_response_witness :
    (get_busyness_at_time (fun _ _ => 1) envNF "another quad" 5).status = "error" ∧
    (get_busyness_at_time (fun _ _ => 1) envNF "another quad" 5).popularity = none ∧
    (get_busyness_at_time (fun _ _ => 1) envNF "another quad" 5).message =
      "Could not find location: " ++ targetBusy "another quad" ∧
    pyIn "not find" (get_busyness_at_time (fun _ _ => 1) envNF "another quad" 5).message
      = true :=
  C8_not_found_response (fun _ _ => 1) envNF "another quad" 5 rfl

/-- The peak keywords of `extract_busyness_query_type`. -/
def peakKws : List String := ["busiest", "most crowded", "peak time", "peak hour", "most busy"]

/-- The time keywords of `extract_busyness_query_type` (`o'clock` written with
an escaped apostrophe). -/
def timeKws : List String := ["at", "around", "pm", "am", "o\x27clock"]

/-- `extract_busyness_query_type` from `busyness_helper.py`. -/
def extract_busyness_query_type (query : String) : String :=
  let ql := pyLower query
  if peakKws.any (fun k => pyIn k ql) then "peak_time"
  else if (timeKws.any (fun k => pyIn k ql)) && !(pyIn "now" ql) then "specific_time"
  else "current"

/-- C10: `extract_busyness_query_type` precedence and substring matching.
Peak keywords win over everything; otherwise any occurrence of the substring
"now" (also inside longer words) forces `current` even when time keywords
are present; otherwise any time-keyword substring (also inside longer words,
e.g. "at" in "what") yields `specific_time`; otherwise `current`. -/
theorem C10_classify_query_type_precedence (query : String) :
    (peakKws.any (fun k => pyIn k (pyLower query)) = true →
      extract_busyness_query_type query = "peak_time") ∧
    (peakKws.any (fun k => pyIn k (pyLower query)) = false →
      pyIn "now" (pyLower query) = true →
      extract_busyness_query_type query = "current") ∧
    (peakKws.any (fun k => pyIn k (pyLower query)) = false →
      pyIn "now" (pyLower query) = false →
      timeKws.any (fun k => pyIn k (pyLower query)) = true →
      extract_busyness_query_type query = "specific_time") ∧
    (peakKws.any (fun k => pyIn k (pyLower query)) = false →
      timeKws.any (fun k => pyIn k (pyLower query)) = false →
      extract_busyness_query_type query = "current") := by
  refine ⟨?_, ?_, ?_, ?_⟩
  · intro hp
    simp only [extract_busyness_query_type, hp, if_pos]
  · intro hp hnow
    simp [extract_busyness_query_type, hp, hnow]
  · intro hp hnow ht
    simp [extract_busyness_query_type, hp, hnow, ht]
  · intro hp ht
    simp [extract_busyness_query_type, hp, ht]

/-- C10 witness: the four precedence branches on concrete queries —
"know" containing "now" forces `current` despite "at"/"pm"; "what"
containing "at" yields `specific_time`; a peak keyword wins despite "now";
no keywords at all yields `current`. -/
theorem C10_classify_query_type_witness :
    extract_busyness_query_type "how busy is it at 3 pm do you know" = "current" ∧
    extract_busyness_query_type "what is busy" = "specific_time" ∧
    extract_busyness_query_type "busiest time at livi now" = "peak_time" ∧
    extract_busyness_query_type "busy levels" = "current" :=
  ⟨(C10_classify_query_type_precedence "how busy is it at 3 pm do you know").2.1 (by decide) (by decide),
   (C10_classify_query_type_precedence "what is busy").2.2.1 (by decide) (by decide) (by decide),
   (C10_classify_query_type_precedence "busiest time at livi now").1 (by decide),
   (C10_classify_query_type_precedence "busy levels").2.2.2 (by decide) (by decide)⟩

/-- One entry of `hourly_data` in `find_peak_time`. -/
structure HourItem where
  hour : ℤ
  popularity : ℤ
  time_str : String
  dtime : ℤ
  deriving DecidableEq

instance : Inhabited HourItem := ⟨⟨0, 0, "", 0⟩⟩

/-- The response dict of `find_peak_time` (`average_busy_time`, which is only
ever `None`, is omitted). -/
structure PeakResult where
  location : Option String
  peak_hours : List HourItem
  all_hours : List HourItem
  peak_window : List HourItem
  status : String
  message : String

/-- `strftime("%I:%M %p").lstrip("0")` for a whole hour. -/
def fmt12 (h : ℤ) : String :=
  (toString (if Int.emod h 12 = 0 then (12:ℤ) else Int.emod h 12)) ++ ":00 "
    ++ (if h < 12 then "AM" else "PM")

/-- The target resolution of `find_peak_time` (dining-style queries as-is,
with `"fast food"` in the keyword list). -/
def targetPeak (q : String) : String :=
  if diningKwsPeak.any (fun k => pyIn k (pyLower q)) then q else _normalize_place_query q

/-- The hourly loop of `find_peak_time`: for each hour of the grid, a
historical-only (`allow_live=False`) popularity lookup at that hour of the
base day; hours without data are skipped; a raise propagates to the outer
`try/except`. -/
def buildHourly (popAt : String → Except String Info) (pid : String) (base : ℤ) :
    List ℤ → Except String (List HourItem)
  | [] => Except.ok []
  | h :: hs =>
    match _get_popularity_for_id_at popAt pid ((Int.fdiv base 1440) * 1440 + h * 60) false with
    | Except.error e => Except.error e
    | Except.ok (some v, _) =>
      match buildHourly popAt pid base hs with
      | Except.error e => Except.error e
      | Except.ok rest =>
        Except.ok (⟨h, v, fmt12 h, (Int.fdiv base 1440) * 1440 + h * 60⟩ :: rest)
    | Except.ok (Option.none, _) => buildHourly popAt pid base hs

/-- `range(7, 23)`: the 16-sample 07:00–22:00 grid. -/
def peakHoursRange : List ℤ := [7, 8, 9, 10, 11, 12, 13, 14, 15, 16, 17, 18, 19, 20, 21, 22]

/-- `sorted(hourly_data, key=popularity, reverse=True)`: stable descending
merge sort. -/
def sortedDesc (l : List HourItem) : List HourItem :=
  l.mergeSort (fun a b => decide (b.popularity ≤ a.popularity))

/-- `find_peak_time` from `busyness_helper.py`. As with
`get_busyness_at_time`, the wall clock is `env.nowT`; the outer `try/except`
turns any raise into the `status="error"` response. `sorted_data[0]`
(guaranteed nonempty by the emptiness check) is modelled as `headD`. The
float threshold `max * 0.85` is the exact rational `(85/100) * max`. -/
def find_peak_time (env : Env) (location_query : String) (day_offset : ℤ) : PeakResult :=
  let target := targetPeak location_query
  match env.textSearch target with
  | Except.error e =>
    { location := none, peak_hours := [], all_hours := [], peak_window := [],
      status := "error", message := "Error: " ++ e }
  | Except.ok Option.none =>
    { location := some target, peak_hours := [], all_hours := [], peak_window := [],
      status := "error", message := "Could not find location: " ++ target }
  | Except.ok (some top) =>
    let nm := resolvedName top target
    match buildHourly env.popAt top.id (env.nowT + day_offset * 1440) peakHoursRange with
    | Except.error e =>
      { location := none, peak_hours := [], all_hours := [], peak_window := [],
        status := "error", message := "Error: " ++ e }
    | Except.ok hourly =>
      if hourly = [] then
        { location := some nm, peak_hours := [], all_hours := [], peak_window := [],
          status := "unavailable",
          message := "No historical busyness data available for " ++ nm }
      else
        let sorted := sortedDesc hourly
        let top3 := sorted.take 3
        let m := sorted.headD default
        let thr : ℚ := (m.popularity : ℚ) * (85 / 100)
        let pw := hourly.filter (fun i => decide (thr ≤ (i.popularity : ℚ)))
        let msg1 := nm ++ " is typically busiest at " ++ m.time_str ++ " ("
          ++ toString m.popularity ++ "% busy)"
        let msg := if 1 < pw.length then
            msg1 ++ ". Peak busy period: " ++ (pw.headD default).time_str ++ " - "
              ++ (pw.getLastD default).time_str
          else msg1
        { location := some nm, peak_hours := top3, all_hours := hourly,
          peak_window := pw, status := "success", message := msg }

theorem buildHourly_hours_sublist (popAt : String → Except String Info) (pid : String)
    (base : ℤ) : ∀ (hs : List ℤ) (items : List HourItem),
    buildHourly popAt pid base hs = Except.ok items →
    (items.map HourItem.hour).Sublist hs := by
  intro hs
  induction hs with
  | nil =>
    intro items h
    simp only [buildHourly] at h
    rw [← Except.ok.inj h]
    simp
  | cons hh rest ih =>
    intro items h
    unfold buildHourly at h
    split at h
    · simp at h
    · split at h
      · simp at h
      · rename_i items2 hrest
        rw [← Except.ok.inj h]
        simp only [List.map_cons]
        exact List.Sublist.cons₂ hh (ih items2 hrest)
    · exact List.Sublist.cons hh (ih items h)

theorem buildHourly_range (popAt : String → Except String Info) (pid : String) (base : ℤ)
    (hr : ∀ pid2 info, popAt pid2 = Except.ok info → infoInRange info) :
    ∀ (hs : List ℤ) (items : List HourItem),
    buildHourly popAt pid base hs = Except.ok items →
    ∀ i ∈ items, 0 ≤ i.popularity ∧ i.popularity ≤ 100 := by
  intro hs
  induction hs with
  | nil =>
    intro items h i hi
    simp only [buildHourly] at h
    rw [← Except.ok.inj h] at hi
    simp at hi
  | cons hh rest ih =>
    intro items h i hi
    unfold buildHourly at h
    split at h
    · simp at h
    · rename_i v src hcall
      split at h
      · simp at h
      · rename_i items2 hrest
        rw [← Except.ok.inj h] at hi
        rcases List.mem_cons.mp hi with rfl | hi2
        · simp only [_get_popularity_for_id_at] at hcall
          rcases hp : popAt pid with e | info
          · rw [hp] at hcall; simp [Except.map] at hcall
          · rw [hp] at hcall
            simp only [Except.map, Except.ok.injEq] at hcall
            exact popAtInfo_range (hr pid info hp) hcall
        · exact ih items2 hrest i hi2
    · exact ih items h i hi

theorem sortedDesc_perm (l : List HourItem) : (sortedDesc l).Perm l :=
  List.mergeSort_perm l _

theorem sortedDesc_pairwise (l : List HourItem) :
    (sortedDesc l).Pairwise (fun a b => b.popularity ≤ a.popularity) := by
  have h := @List.sorted_mergeSort HourItem
    (fun a b : HourItem => decide (b.popularity ≤ a.popularity))
    (fun a b c hab hbc => by
      simp only [decide_eq_true_eq] at hab hbc ⊢
      exact le_trans hbc hab)
    (fun a b => by
      simp only [Bool.or_eq_true, decide_eq_true_eq]
      exact le_total b.popularity a.popularity)
    l
  exact h.imp (fun hab => by simpa using hab)

/-- C6: peak-window invariant. When the place resolves and at least one
hour of the 07:00-22:00 16-sample grid has historical data (and provider
readings respect the `[0,100]` contract), `find_peak_time` reports success;
its `peak_window` is a chronologically ordered sublist of the grid
consisting exactly of the hours whose value meets or exceeds `0.85` times
the maximum, and it contains a maximum-valued sample; `peak_hours` are the
three highest-valued samples (a partition of the grid with every remaining
sample no larger). -/
theorem C6_peak_window_invariant (env : Env) (q : String) (d : ℤ) (top : Place)
    (hourly : List HourItem)
    (hr : rangeValid env)
    (hts : env.textSearch (targetPeak q) = Except.ok (some top))
    (hb : buildHourly env.popAt top.id (env.nowT + d * 1440) peakHoursRange = Except.ok hourly)
    (hne : hourly ≠ []) :
    (find_peak_time env q d).status = "success" ∧
    (find_peak_time env q d).all_hours = hourly ∧
    (find_peak_time env q d).peak_window.Sublist (find_peak_time env q d).all_hours ∧
    (find_peak_time env q d).all_hours.Pairwise (fun a b => a.hour < b.hour) ∧
    (∃ m, m ∈ (find_peak_time env q d).peak_window ∧
      (∀ y ∈ (find_peak_time env q d).all_hours, y.popularity ≤ m.popularity) ∧
      (∀ s, s ∈ (find_peak_time env q d).peak_window ↔
        s ∈ (find_peak_time env q d).all_hours ∧
        (85 : ℚ)/100 * (m.popularity : ℚ) ≤ (s.popularity : ℚ))) ∧
    (∃ rest, (find_peak_time env q d).all_hours.Perm
        ((find_peak_time env q d).peak_hours ++ rest) ∧
      (find_peak_time env q d).peak_hours.length =
        min 3 (find_peak_time env q d).all_hours.length ∧
      ∀ x ∈ (find_peak_time env q d).peak_hours, ∀ y ∈ rest,
        y.popularity ≤ x.popularity) := by
  have hstat : (find_peak_time env q d).status = "success" := by
    simp only [find_peak_time, hts, hb, if_neg hne]
  have hall : (find_peak_time env q d).all_hours = hourly := by
    simp only [find_peak_time, hts, hb, if_neg hne]
  have hpw : (find_peak_time env q d).peak_window = hourly.filter
      (fun i => decide ((((sortedDesc hourly).headD default).popularity : ℚ) * (85/100)
        ≤ (i.popularity : ℚ))) := by
    simp only [find_peak_time, hts, hb, if_neg hne]
  have hph : (find_peak_time env q d).peak_hours = (sortedDesc hourly).take 3 := by
    simp only [find_peak_time, hts, hb, if_neg hne]
  have hSperm : (sortedDesc hourly).Perm hourly := sortedDesc_perm hourly
  have hSpw := sortedDesc_pairwise hourly
  have hrange := buildHourly_range env.popAt top.id (env.nowT + d * 1440) hr
    peakHoursRange hourly hb
  rcases hS : sortedDesc hourly with _ | ⟨m2, tl⟩
  · have : hourly = [] := by
      have hperm : ([] : List HourItem).Perm hourly := hS ▸ hSperm
      exact (List.Perm.nil_eq hperm).symm
    exact absurd this hne
  · have hhead : (sortedDesc hourly).headD default = m2 := by rw [hS]; rfl
    have hm2mem : m2 ∈ hourly := (hSperm.mem_iff).mp (by rw [hS]; exact List.mem_cons_self _ _)
    have hmax : ∀ y ∈ hourly, y.popularity ≤ m2.popularity := by
      intro y hy
      have hyS : y ∈ sortedDesc hourly := (hSperm.mem_iff).mpr hy
      rw [hS] at hyS
      rcases List.mem_cons.mp hyS with rfl | hytl
      · exact le_refl _
      · have := (List.pairwise_cons.mp (hS ▸ hSpw)).1 y hytl
        exact this
    have hm2pos : 0 ≤ m2.popularity := (hrange m2 hm2mem).1
    refine ⟨hstat, hall, ?_, ?_, ?_, ?_⟩
    · rw [hpw, hall]
      exact List.filter_sublist hourly
    · rw [hall]
      have hsub := buildHourly_hours_sublist env.popAt top.id (env.nowT + d * 1440)
        peakHoursRange hourly hb
      have hpr : peakHoursRange.Pairwise (fun a b : ℤ => a < b) := by decide
      have := List.Pairwise.sublist hsub hpr
      exact (List.pairwise_map.mp this)
    · refine ⟨m2, ?_, ?_, ?_⟩
      · rw [hpw, hhead]
        refine List.mem_filter.mpr ⟨hm2mem, ?_⟩
        simp only [decide_eq_true_eq]
        have h2 : (0:ℚ) ≤ (m2.popularity : ℚ) := by exact_mod_cast hm2pos
        linarith
      · intro y hy
        rw [hall] at hy
        exact hmax y hy
      · intro s
        rw [hpw, hall, hhead]
        rw [List.mem_filter]
        simp only [decide_eq_true_eq]
        constructor
        · rintro ⟨h1, h2⟩
          exact ⟨h1, by linarith⟩
        · rintro ⟨h1, h2⟩
          exact ⟨h1, by linarith⟩
    · refine ⟨(sortedDesc hourly).drop 3, ?_, ?_, ?_⟩
      · rw [hph, hall]
        rw [List.take_append_drop]
        exact hSperm.symm
      · rw [hph, hall]
        rw [List.length_take]
        rw [List.Perm.length_eq hSperm]
      · intro x hx y hy
        rw [hph] at hx
        have hsplit : ((sortedDesc hourly).take 3 ++ (sortedDesc hourly).drop 3).Pairwise
            (fun a b => b.popularity ≤ a.popularity) := by
          rw [List.take_append_drop]
          exact hSpw
        exact ((List.pairwise_append.mp hsplit).2.2) x hx y hy

theorem popAtInfo_false (info : Info) (t : ℤ) :
    popAtInfo info t false =
      (match _hist_around info t with
       | some h => (some h, Source.historical)
       | Option.none => (none, Source.unavailable)) := rfl

theorem _hist_at_congr {info info2 : Info} (h : info.populartimes = info2.populartimes)
    (t : ℤ) : _hist_at info t = _hist_at info2 t := by
  unfold _hist_at
  rw [h]

theorem windowVals_congr {info info2 : Info} (h : info.populartimes = info2.populartimes)
    (t : ℤ) : windowVals info t = windowVals info2 t := by
  unfold windowVals
  congr 1
  funext off
  exact _hist_at_congr h _

theorem _hist_around_congr {info info2 : Info} (h : info.populartimes = info2.populartimes)
    (t : ℤ) : _hist_around info t = _hist_around info2 t := by
  unfold _hist_around
  rw [windowVals_congr h]

theorem getpop_false_congr {popAt popAt2 : String → Except String Info} (pid : String)
    (t : ℤ) (h : (popAt pid).map Info.populartimes = (popAt2 pid).map Info.populartimes) :
    _get_popularity_for_id_at popAt pid t false =
      _get_popularity_for_id_at popAt2 pid t false := by
  unfold _get_popularity_for_id_at
  rcases h1 : popAt pid with e | i <;> rcases h2 : popAt2 pid with e2 | i2 <;>
    rw [h1, h2] at h <;> simp only [Except.map, Except.error.injEq, Except.ok.injEq] at h ⊢
  · exact h
  · exact absurd h (by simp)
  · exact absurd h (by simp)
  · rw [popAtInfo_false, popAtInfo_false, _hist_around_congr h]

theorem buildHourly_congr {popAt popAt2 : String → Except String Info} (pid : String)
    (base : ℤ) (h : ∀ p, (popAt p).map Info.populartimes = (popAt2 p).map Info.populartimes) :
    ∀ hs, buildHourly popAt pid base hs = buildHourly popAt2 pid base hs := by
  intro hs
  induction hs with
  | nil => rfl
  | cons hh rest ih =>
    unfold buildHourly
    rw [getpop_false_congr pid _ (h pid), ih]

/-- C7: live-reading gating. With `allow_live=False` the popularity provider
never reports `source=live`; consequently `find_peak_time` — whose 16 hourly
calls all pass `allow_live=False` — is entirely unaffected by the providers'
live `current_popularity` readings: two environments agreeing on everything
except those readings produce identical peak reports. -/
theorem C7_live_gating :
    (∀ (popSrc : String → Except String Info) (pid : String) (t : ℤ)
      (res : Option ℤ × Source),
      _get_popularity_for_id_at popSrc pid t false = Except.ok res →
      res.2 ≠ Source.live) ∧
    (∀ (env env2 : Env) (q : String) (d : ℤ), env.nowT = env2.nowT →
      env.textSearch = env2.textSearch →
      (∀ pid, (env.popAt pid).map Info.populartimes = (env2.popAt pid).map Info.populartimes) →
      find_peak_time env q d = find_peak_time env2 q d) := by
  constructor
  · intro popSrc pid t res h
    unfold _get_popularity_for_id_at at h
    rcases hp : popSrc pid with e | info
    · rw [hp] at h; simp [Except.map] at h
    · rw [hp] at h
      simp only [Except.map, Except.ok.injEq] at h
      rw [popAtInfo_false] at h
      rcases hh : _hist_around info t with _ | hv <;> rw [hh] at h <;> rw [← h] <;> simp
  · intro env env2 q d h1 h2 h3
    have hbuild := @buildHourly_congr env.popAt env2.popAt
    rcases henv : env2.textSearch (targetPeak q) with e | ov
    · simp only [find_peak_time, h1, h2, henv]
    · rcases ov with _ | top
      · simp only [find_peak_time, h1, h2, henv]
      · simp only [find_peak_time, h1, h2, henv,
          hbuild top.id (env2.nowT + d * 1440) h3 peakHoursRange]

/-- A concrete Monday histogram: 60 at 12:00 and 90 at 13:00, else no data. -/
def gridP : List (Option ℤ) :=
  [none, none, none, none, none, none, none, none, none, none, none, none,
   some 60, some 90, none, none, none, none, none, none, none, none, none, none]

/-- A concrete payload with the `gridP` histogram and no live reading. -/
def infoP : Info := ⟨none, some [⟨some 0, some gridP⟩]⟩

/-- A concrete payload with the `gridP` histogram and live reading 99. -/
def infoL : Info := ⟨some 99, some [⟨some 0, some gridP⟩]⟩

/-- A concrete environment serving `infoP` for every place. -/
def envP : Env :=
  { nowT := 0,
    textSearch := fun _ => Except.ok (some placeA),
    nearby1 := Except.ok [],
    nearby2 := Except.ok [],
    popAt := fun _ => Except.ok infoP }

/-- `envP` with a live reading 99 added to every payload. -/
def envL : Env :=
  { nowT := 0,
    textSearch := fun _ => Except.ok (some placeA),
    nearby1 := Except.ok [],
    nearby2 := Except.ok [],
    popAt := fun _ => Except.ok infoL }

/-- The hourly grid `find_peak_time` builds on `envP` (smoothed ±1h means). -/
def hourlyP : List HourItem :=
  [⟨11, 60, fmt12 11, 660⟩, ⟨12, 75, fmt12 12, 720⟩,
   ⟨13, 75, fmt12 13, 780⟩, ⟨14, 90, fmt12 14, 840⟩]

theorem envP_rangeValid : rangeValid envP := by
  intro pid info h
  have hinj := Except.ok.inj h
  rw [← hinj]
  constructor
  · intro c hc
    cases hc
  · intro pts hpts dd hdd l hl x hx v hv
    have hp2 : pts = [⟨some 0, some gridP⟩] := by
      have h1 : infoP.populartimes = some pts := hpts
      simp only [infoP] at h1
      exact (Option.some.inj h1).symm
    subst hp2
    simp only [List.mem_singleton] at hdd
    subst hdd
    have hl2 : some gridP = some l := hl
    have hl3 := Option.some.inj hl2
    subst hl3
    subst hv
    simp only [gridP, List.mem_cons, List.not_mem_nil, or_false] at hx
    rcases hx with h | h | h | h | h | h | h | h | h | h | h | h | h | h | h | h | h | h |
      h | h | h | h | h | h <;> first
      | (have hv2 := Option.some.inj h; omega)
      | (cases h)

example : buildHourly envP.popAt "pid1" (envP.nowT + 0 * 1440) peakHoursRange
    = Except.ok hourlyP := by decide

/-- C6 witness: the invariant on the concrete environment `envP`, whose
grid smooths to the 4 samples `hourlyP`. -/
theorem C6_peak_window_invariant_witness :
    (find_peak_time envP "busch sc" 0).status = "success" ∧
    (find_peak_time envP "busch sc" 0).all_hours = hourlyP ∧
    (find_peak_time envP "busch sc" 0).peak_window.Sublist
      (find_peak_time envP "busch sc" 0).all_hours ∧
    (find_peak_time envP "busch sc" 0).all_hours.Pairwise (fun a b => a.hour < b.hour) ∧
    (∃ m, m ∈ (find_peak_time envP "busch sc" 0).peak_window ∧
      (∀ y ∈ (find_peak_time envP "busch sc" 0).all_hours, y.popularity ≤ m.popularity) ∧
      (∀ s, s ∈ (find_peak_time envP "busch sc" 0).peak_window ↔
        s ∈ (find_peak_time envP "busch sc" 0).all_hours ∧
        (85 : ℚ)/100 * (m.popularity : ℚ) ≤ (s.popularity : ℚ))) ∧
    (∃ rest, (find_peak_time envP "busch sc" 0).all_hours.Perm
        ((find_peak_time envP "busch sc" 0).peak_hours ++ rest) ∧
      (find_peak_time envP "busch sc" 0).peak_hours.length =
        min 3 (find_peak_time envP "busch sc" 0).all_hours.length ∧
      ∀ x ∈ (find_peak_time envP "busch sc" 0).peak_hours, ∀ y ∈ rest,
        y.popularity ≤ x.popularity) :=
  C6_peak_window_invariant envP "busch sc" 0 placeA hourlyP envP_rangeValid rfl (by decide) (by decide)

/-- C7 witness: a historical reading at a concrete payload is not live, and
adding a live reading 99 to every payload (`envL` vs `envP`) leaves the peak
report unchanged. -/
theorem C7_live_gating_witness :
    ((some (90:ℤ), Source.historical).2 ≠ Source.live) ∧
    find_peak_time envL "livi" 0 = find_peak_time envP "livi" 0 :=
  ⟨C7_live_gating.1 (fun _ => Except.ok infoP) "p" 840 (some 90, Source.historical) (by decide),
   C7_live_gating.2 envL envP "livi" 0 rfl rfl (fun _ => rfl)⟩


/-- Python3 `round` on a real (`_weighted_area_estimate` rounds its float
quotient): round half to even. -/
noncomputable def pyRoundR (x : ℝ) : ℤ :=
  if x - ⌊x⌋ < 1/2 then ⌊x⌋
  else if 1/2 < x - ⌊x⌋ then ⌊x⌋ + 1
  else if ⌊x⌋ % 2 = 0 then ⌊x⌋ else ⌊x⌋ + 1

/-- `_haversine_m` from `rutgers_busyness.py`: great-circle distance in
meters, R = 6371000. -/
noncomputable def _haversine_m (lat1 lon1 lat2 lon2 : ℝ) : ℝ :=
  let p1 := lat1 * Real.pi / 180
  let p2 := lat2 * Real.pi / 180
  let dphi := (lat2 - lat1) * Real.pi / 180
  let dl := (lon2 - lon1) * Real.pi / 180
  let a := Real.sin (dphi / 2) ^ 2 + Real.cos p1 * Real.cos p2 * Real.sin (dl / 2) ^ 2
  2 * 6371000 * Real.arcsin (Real.sqrt a)

/-- The Gaussian kernel weight of `_weighted_area_estimate`:
`exp(-(d*d)/(2*sigma*sigma))` with `sigma = 150`. -/
noncomputable def gaussKernel (clat clng slat slng : ℝ) : ℝ :=
  Real.exp (-(_haversine_m clat clng slat slng * _haversine_m clat clng slat slng)
    / (2 * 150 * 150))

/-- `_weighted_area_estimate` from `rutgers_busyness.py` over the reals:
`None` on an empty sample list; accumulate `num += w*val`, `den += w`; `None`
when `den <= 0`; else `int(round(num/den))`. -/
noncomputable def _weighted_area_estimate (clat clng : ℝ)
    (samples : List (ℝ × ℝ × ℤ)) : Option ℤ :=
  if samples = [] then none
  else
    let acc := samples.foldl (fun nd s =>
      (nd.1 + gaussKernel clat clng s.1 s.2.1 * (s.2.2 : ℝ),
       nd.2 + gaussKernel clat clng s.1 s.2.1)) (0, 0)
    if acc.2 ≤ 0 then none else some (pyRoundR (acc.1 / acc.2))

/-- `AreaEstimator.weightedEstimate` exactly as the spec words it: weights
`w_i = exp(-d_i^2/(2*sigma^2))` with `sigma = 150` and `d_i` the haversine
distance, result `round(Sum(w_i*v_i)/Sum(w_i))`, null when the sample list
is empty or the total weight is not positive. -/
noncomputable def weightedEstimate_spec (clat clng : ℝ)
    (samples : List (ℝ × ℝ × ℤ)) : Option ℤ :=
  if samples = [] ∨ (samples.map (fun s =>
      Real.exp (-(_haversine_m clat clng s.1 s.2.1) ^ 2 / (2 * 150 ^ 2)))).sum ≤ 0 then
    none
  else
    some (pyRoundR ((samples.map (fun s =>
      Real.exp (-(_haversine_m clat clng s.1 s.2.1) ^ 2 / (2 * 150 ^ 2)) * (s.2.2 : ℝ))).sum /
      (samples.map (fun s =>
        Real.exp (-(_haversine_m clat clng s.1 s.2.1) ^ 2 / (2 * 150 ^ 2)))).sum))

theorem gaussKernel_eq (clat clng slat slng : ℝ) :
    gaussKernel clat clng slat slng =
      Real.exp (-(_haversine_m clat clng slat slng) ^ 2 / (2 * 150 ^ 2)) := by
  unfold gaussKernel
  congr 1
  ring

theorem pyRoundR_intCast (v : ℤ) : pyRoundR (v : ℝ) = v := by
  unfold pyRoundR
  rw [Int.floor_intCast]
  simp

/-- C5: the source `_weighted_area_estimate` agrees with the spec's reference
definition on every input, and returns null exactly when the sample list is
empty or the total Gaussian weight is not positive (in particular on `[]`). -/
theorem C5_weighted_estimate_reference (clat clng : ℝ) (samples : List (ℝ × ℝ × ℤ)) :
    _weighted_area_estimate clat clng samples = weightedEstimate_spec clat clng samples ∧
    (_weighted_area_estimate clat clng samples = none ↔
      samples = [] ∨
        (samples.map (fun s => gaussKernel clat clng s.1 s.2.1)).sum ≤ 0) ∧
    _weighted_area_estimate clat clng ([] : List (ℝ × ℝ × ℤ)) = none := by
  have hfold := foldl_pair_sum
    (fun s : ℝ × ℝ × ℤ => gaussKernel clat clng s.1 s.2.1 * (s.2.2 : ℝ))
    (fun s : ℝ × ℝ × ℤ => gaussKernel clat clng s.1 s.2.1) samples 0 0
  have hmapw : (samples.map (fun s : ℝ × ℝ × ℤ => gaussKernel clat clng s.1 s.2.1)) =
      (samples.map (fun s : ℝ × ℝ × ℤ =>
        Real.exp (-(_haversine_m clat clng s.1 s.2.1) ^ 2 / (2 * 150 ^ 2)))) := by
    apply List.map_congr_left
    intro s _
    exact gaussKernel_eq clat clng s.1 s.2.1
  have hmapnum : (samples.map (fun s : ℝ × ℝ × ℤ =>
      gaussKernel clat clng s.1 s.2.1 * (s.2.2 : ℝ))) =
      (samples.map (fun s : ℝ × ℝ × ℤ =>
        Real.exp (-(_haversine_m clat clng s.1 s.2.1) ^ 2 / (2 * 150 ^ 2)) * (s.2.2 : ℝ))) := by
    apply List.map_congr_left
    intro s _
    rw [gaussKernel_eq clat clng s.1 s.2.1]
  refine ⟨?_, ?_, by simp [_weighted_area_estimate]⟩
  · unfold _weighted_area_estimate weightedEstimate_spec
    by_cases hnil : samples = []
    · simp [hnil]
    · rw [if_neg hnil, hfold]
      simp only [zero_add]
      by_cases hden : (samples.map (fun s : ℝ × ℝ × ℤ =>
          gaussKernel clat clng s.1 s.2.1)).sum ≤ 0
      · rw [if_pos hden, if_pos (Or.inr (hmapw ▸ hden))]
      · rw [if_neg hden]
        rw [if_neg (by
          push_neg
          refine ⟨hnil, ?_⟩
          rw [← hmapw]
          exact lt_of_not_le hden)]
        rw [← hmapw, ← hmapnum]
  · unfold _weighted_area_estimate
    by_cases hnil : samples = []
    · simp [hnil]
    · rw [if_neg hnil, hfold]
      simp only [zero_add]
      by_cases hden : (samples.map (fun s : ℝ × ℝ × ℤ =>
          gaussKernel clat clng s.1 s.2.1)).sum ≤ 0
      · rw [if_pos hden]
        simp [hnil, hden]
      · rw [if_neg hden]
        simp [hnil, hden]

theorem haversine_self (lat lng : ℝ) : _haversine_m lat lng lat lng = 0 := by
  unfold _haversine_m
  simp

theorem gaussKernel_pos (clat clng slat slng : ℝ) : 0 < gaussKernel clat clng slat slng :=
  Real.exp_pos _

/-- C9: constant-value identity of the area estimator. For every value `v`
in `[0,100]`: one sample at haversine distance 0 from the center yields
exactly `v`, and two samples at equal distance from the center, both valued
`v`, yield exactly `v`. -/
theorem C9_constant_value_identity (v : ℤ) (clat clng slat slng s2lat s2lng : ℝ)
    (h0 : 0 ≤ v) (h100 : v ≤ 100) :
    (_haversine_m clat clng slat slng = 0 →
      _weighted_area_estimate clat clng [(slat, slng, v)] = some v) ∧
    (_haversine_m clat clng slat slng = _haversine_m clat clng s2lat s2lng →
      _weighted_area_estimate clat clng [(slat, slng, v), (s2lat, s2lng, v)] = some v) := by
  constructor
  · intro hd
    have hw : gaussKernel clat clng slat slng = 1 := by
      unfold gaussKernel
      rw [hd]
      norm_num
    unfold _weighted_area_estimate
    rw [if_neg (by simp)]
    simp only [List.foldl_cons, List.foldl_nil, hw]
    norm_num
    exact pyRoundR_intCast v
  · intro hd
    have hw : gaussKernel clat clng s2lat s2lng = gaussKernel clat clng slat slng := by
      unfold gaussKernel
      rw [hd]
    have hpos := gaussKernel_pos clat clng slat slng
    unfold _weighted_area_estimate
    rw [if_neg (by simp)]
    simp only [List.foldl_cons, List.foldl_nil, hw]
    rw [if_neg (by push_neg; linarith [hpos])]
    have hne : gaussKernel clat clng slat slng ≠ 0 := ne_of_gt hpos
    have hquot : (0 + gaussKernel clat clng slat slng * (v : ℝ)
        + gaussKernel clat clng slat slng * (v : ℝ)) /
        (0 + gaussKernel clat clng slat slng + gaussKernel clat clng slat slng)
        = (v : ℝ) := by
      field_simp
      ring
    rw [hquot]
    rw [pyRoundR_intCast v]

/-- C9 witness: a single sample of value 75 at the center yields exactly 75,
and two coincident equal samples of value 75 also yield exactly 75. -/
theorem C9_constant_value_identity_witness :
    _weighted_area_estimate 0 0 [(0, 0, 75)] = some 75 ∧
    _weighted_area_estimate 0 0 [(0, 0, 75), (0, 0, 75)] = some 75 :=
  ⟨(C9_constant_value_identity 75 0 0 0 0 0 0 (by norm_num) (by norm_num)).1
      (haversine_self 0 0),
   (C9_constant_value_identity 75 0 0 0 0 0 0 (by norm_num) (by norm_num)).2 rfl⟩

end RUBot
